import Mathlib

/-!
Shallow embedding of the WhatsApp-style persona chatbot's retrieval and
selection core.  The embedding covers:

* `parse_whatsapp_chat` from the chat-cleaner script (transcript lines to
  `ConversationPair` records, carried `last_message`/`last_sender` state);
* `extract_common_phrases` from `context_chatbot.py` (signature phrases);
* `get_response` from `context_chatbot.py` (direct-match scan against the
  stored contexts, generative fallback, session memory update).

Python string primitives (`strip`, `split(sep, 1)`, `split()`, `lower`,
substring membership) are modelled explicitly on `List Char`.  Fallible
behaviour (the `ZeroDivisionError` reachable in the direct-match similarity
computation) is modelled with `Option`: a `none` result stands for the
Python call raising.  External collaborators (the Chroma vector store and
the Ollama generator) are parameters: the joined neighbour text and the
generator function are inputs of `get_response`, exactly as the spec
declares them out of scope.
-/

set_option maxRecDepth 8000

/-- Python `hay.startswith(needle)` on explicit character lists. -/
def startsWithL : List Char → List Char → Bool
  | [], _ => true
  | _ :: _, [] => false
  | x :: xs, y :: ys => x == y && startsWithL xs ys

/-- Python substring membership `needle in hay` on character lists. -/
def containsL (needle : List Char) : List Char → Bool
  | [] => startsWithL needle []
  | y :: ys => startsWithL needle (y :: ys) || containsL needle ys

/-- Python `needle in hay` for strings (substring containment). -/
def pyIn (needle hay : String) : Bool :=
  containsL needle.data hay.data

/-- Python `s.split(sep, 1)`: split at the first occurrence of `sep`;
`none` models the `ValueError` raised by tuple unpacking when `sep` does
not occur. -/
def splitOnceL (sep : List Char) : List Char → Option (List Char × List Char)
  | [] => none
  | y :: ys =>
    if startsWithL sep (y :: ys) then some ([], (y :: ys).drop sep.length)
    else
      match splitOnceL sep ys with
      | none => none
      | some (a, b) => some (y :: a, b)

/-- String-level wrapper of `splitOnceL`. -/
def splitOnce (sep s : String) : Option (String × String) :=
  match splitOnceL sep.data s.data with
  | none => none
  | some (a, b) => some (⟨a⟩, ⟨b⟩)

/-- Drop trailing whitespace characters. -/
def dropTrailingWs (l : List Char) : List Char :=
  (l.reverse.dropWhile Char.isWhitespace).reverse

/-- Python `s.strip()` on character lists: drop leading and trailing
whitespace. -/
def stripChars (l : List Char) : List Char :=
  dropTrailingWs (l.dropWhile Char.isWhitespace)

/-- Python `s.strip()`. -/
def pyStrip (s : String) : String :=
  ⟨stripChars s.data⟩

/-- Accumulator loop behind `pyWords`; `cur` holds the current word
reversed. -/
def wordsAux : List Char → List Char → List String
  | [], cur => if cur.isEmpty then [] else [⟨cur.reverse⟩]
  | c :: rest, cur =>
    if c.isWhitespace then
      if cur.isEmpty then wordsAux rest [] else (⟨cur.reverse⟩ : String) :: wordsAux rest []
    else wordsAux rest (c :: cur)

/-- Python `s.split()` with no separator: the whitespace-delimited words of
`s`, with no empty entries. -/
def pyWords (s : String) : List String :=
  wordsAux s.data []

/-- Python `s.lower()`. -/
def pyLower (s : String) : String :=
  ⟨s.data.map Char.toLower⟩

/-- One parsed record of the chat cleaner: the dictionary
`{'context': ..., 'response': ..., 'timestamp': ...}`. -/
structure ConversationPair where
  context : String
  response : String
  timestamp : String
deriving DecidableEq

/-- The two `split` calls of the parser's `try` block: split the line on the
first `" - "` into `(timestamp, rest)`, then `rest` on the first `": "` into
`(sender, message)`.  `none` models the caught `ValueError`. -/
def lineShape (line : String) : Option (String × String × String × String) :=
  match splitOnce " - " line with
  | none => none
  | some (timestamp, rest) =>
    match splitOnce ": " rest with
    | none => none
    | some (sender, message) => some (timestamp, rest, sender, message)

/-- The pair-emission step of `parse_whatsapp_chat` for a line whose sender
field contains `person_of_interest`: context is the carried `last_message`
when it is truthy and `last_sender` does not contain the target, and empty
otherwise.  `st` carries `(last_message, last_sender)`; `none` is the
initial `None`/`None` state. -/
def pairsFor (person_of_interest : String) (st : Option (String × String))
    (timestamp sender message : String) : List ConversationPair :=
  if pyIn person_of_interest sender then
    match st with
    | some (last_message, last_sender) =>
      if last_message ≠ "" ∧ pyIn person_of_interest last_sender = false then
        [⟨last_message, message, timestamp⟩]
      else
        [⟨"", message, timestamp⟩]
    | none => [⟨"", message, timestamp⟩]
  else []

/-- One iteration of the parser's `for line in lines` loop: strip the line,
skip blank lines, attempt the two splits (a failure is the caught
`ValueError`), skip media-omission messages before touching the carried
state, apply the (dead) system-message guard, emit the pairs for a
target-speaker line, and finally record `(message, sender)` as the new
carried state. -/
def processLine (person_of_interest : String) (st : Option (String × String))
    (rawLine : String) : Option (String × String) × List ConversationPair :=
  let line := pyStrip rawLine
  if line = "" then (st, [])
  else
    match lineShape line with
    | none => (st, [])
    | some (timestamp, rest, sender, message) =>
      if pyIn "<Media omitted>" message then (st, [])
      else if pyIn ": " rest = false then (st, [])
      else (some (message, sender),
            pairsFor person_of_interest st timestamp sender message)

/-- The parser's loop over the remaining lines, threading the carried
`(last_message, last_sender)` state. -/
def parseLines (person_of_interest : String) (st : Option (String × String)) :
    List String → List ConversationPair
  | [] => []
  | line :: rest =>
    let step := processLine person_of_interest st line
    step.2 ++ parseLines person_of_interest step.1 rest

/-- The chat cleaner's `parse_whatsapp_chat`: fold the per-line step over
the file's lines starting from the empty carried state. -/
def parse_whatsapp_chat (person_of_interest : String) (lines : List String) :
    List ConversationPair :=
  parseLines person_of_interest none lines

/-- Instrumented copy of `parseLines` that annotates every emitted pair with
the carried `(last_message, last_sender)` state at the moment of emission,
i.e. with the most recent successfully-parsed (non-skipped) line's message
and sender. -/
def parseLinesAnn (person_of_interest : String) (st : Option (String × String)) :
    List String → List (ConversationPair × Option (String × String))
  | [] => []
  | line :: rest =>
    let step := processLine person_of_interest st line
    step.2.map (fun p => (p, st)) ++ parseLinesAnn person_of_interest step.1 rest

/-- The `all_responses` list of `extract_common_phrases` and of the class
constructor: the responses of the loaded conversation entries whose
`response` field is truthy (non-empty). -/
def allResponses (conversations : List ConversationPair) : List String :=
  (conversations.filter (fun conv => decide (conv.response ≠ ""))).map
    ConversationPair.response

/-- The short responses fed into `phrase_counter`: responses of at most
five whitespace-separated words. -/
def shortResponses (responses : List String) : List String :=
  responses.filter (fun response => decide ((pyWords response).length ≤ 5))

/-- The keys of the Python `phrase_counter` dict, in insertion order, i.e.
the distinct short responses in order of first occurrence. -/
def counterKeys (responses : List String) : List String :=
  (shortResponses responses).foldl
    (fun acc response => if response ∈ acc then acc else acc ++ [response]) []

/-- The `phrase_counter` dict as an association list in key-insertion
order: each distinct short response with its number of occurrences. -/
def phraseCounter (responses : List String) : List (String × Nat) :=
  (counterKeys responses).map
    (fun phrase => (phrase, (shortResponses responses).count phrase))

/-- Ordering used by `common_phrases.sort(key=lambda x: x[1], reverse=True)`:
the pair `a` may precede `b` when its count is at least `b`'s. -/
def countGE (a b : String × Nat) : Prop :=
  b.2 ≤ a.2

instance : DecidableRel countGE :=
  fun a b => inferInstanceAs (Decidable (b.2 ≤ a.2))

instance : IsTotal (String × Nat) countGE :=
  ⟨fun a b => Nat.le_total b.2 a.2⟩

instance : IsTrans (String × Nat) countGE :=
  ⟨fun _ _ _ h1 h2 => Nat.le_trans h2 h1⟩

/-- The `common_phrases` list of `extract_common_phrases` after the
threshold filter and the descending stable sort by count. -/
def commonPhrasesSorted (responses : List String) : List (String × Nat) :=
  List.insertionSort countGE
    ((phraseCounter responses).filter (fun pc => decide (5 ≤ pc.2)))

/-- The `common_phrases[:30]` truncation: the entries of the returned
bulleted list. -/
def commonPhrasesTop (responses : List String) : List (String × Nat) :=
  (commonPhrasesSorted responses).take 30

/-- The chatbot's `extract_common_phrases`: the top entries formatted as a
bulleted list with occurrence counts, joined by newlines. -/
def extract_common_phrases (conversations : List ConversationPair) : String :=
  String.intercalate "\n"
    ((commonPhrasesTop (allResponses conversations)).map
      (fun pc => "- \"" ++ pc.1 ++ "\" (used " ++ toString pc.2 ++ " times)"))

/-- The argument record of the generator collaborator (`self.chain.run`'s
keyword arguments). -/
structure PromptInput where
  message : String
  similar_messages : String
  common_phrases : String
  last_message : String
  name : String

/-- Cardinality of `set(message.lower().split()) & set(context.lower().split())`:
the distinct words of the lowered message that also occur among the words
of the lowered context. -/
def wordOverlapCount (message context : String) : Nat :=
  ((pyWords (pyLower message)).dedup.filter
    (fun w => decide (w ∈ pyWords (pyLower context)))).length

/-- The denominator `max(len(message.split()), len(context.split()))` of the
similarity ratio. -/
def wordMaxCount (message context : String) : Nat :=
  max (pyWords message).length (pyWords context).length

/-- The direct-match scan of `get_response` over the zipped
`(self.contexts, self.responses)` arrays: for every truthy context passing
the case-insensitive mutual-substring test, compute the word-overlap ratio
and collect the paired response when the ratio exceeds `0.5`.  A `none`
result models the `ZeroDivisionError` raised when such a context and the
message both split into zero words, making the denominator `0`. -/
def directMatchScan (message : String) :
    List (String × String) → Option (List String)
  | [] => some []
  | (context, resp) :: rest =>
    if context ≠ "" ∧ (pyIn (pyLower message) (pyLower context) = true ∨
        pyIn (pyLower context) (pyLower message) = true) then
      if wordMaxCount message context = 0 then none
      else
        let similarity : ℚ :=
          (wordOverlapCount message context : ℚ) / (wordMaxCount message context : ℚ)
        if (1 : ℚ) / 2 < similarity then
          match directMatchScan message rest with
          | none => none
          | some ms => some (resp :: ms)
        else directMatchScan message rest
    else directMatchScan message rest

/-- The chatbot's `get_response`.  Inputs out of the spec's scope are
parameters: `similar_messages` is the joined text of the vector-store
neighbours, `generate` is the LLM chain and `choice` is `random.choice`.
The result is `some (returned, last_message, generatorCalled)`: the value
returned to the caller (`response.strip()`), the value stored into
`self.last_message` (the un-stripped `response`), and whether the
generative branch ran; `none` models the `ZeroDivisionError` escaping from
the direct-match scan. -/
def get_response (contexts responses : List String)
    (common_phrases last_message : String) (generate : PromptInput → String)
    (choice : List String → String) (similar_messages message name : String) :
    Option (String × String × Bool) :=
  match directMatchScan message (contexts.zip responses) with
  | none => none
  | some direct_matches =>
    if direct_matches ≠ [] then
      let response := choice direct_matches
      some (pyStrip response, response, false)
    else
      let response := generate
        ⟨message, similar_messages, common_phrases, last_message, name⟩
      some (pyStrip response, response, true)

/-- Invariant of the parser's carried state: a recorded `last_message` is
never empty (a stripped line cannot end in the whitespace that a trailing
`": "` delimiter would force). -/
def stOK (st : Option (String × String)) : Prop :=
  ∀ lm ls, st = some (lm, ls) → lm ≠ ""

/-- Example generator collaborator used to instantiate theorems at concrete
inputs. -/
def exGen : PromptInput → String := fun _ => "GEN"

/-- Example `random.choice` instance used to instantiate theorems at
concrete inputs: it picks the first candidate. -/
def exChoice : List String → String := fun l => l.headD ""

lemma string_data_eq {s t : String} (h : s = t) : s.data = t.data :=
  congrArg String.data h

lemma string_eq_of_data {s t : String} (h : s.data = t.data) : s = t := by
  cases s
  cases t
  exact congrArg String.mk h

lemma startsWithL_eq : ∀ (sep l : List Char), startsWithL sep l = true →
    l = sep ++ l.drop sep.length := by
  intro sep
  induction sep with
  | nil => intro l _; simp
  | cons x xs ih =>
    intro l h
    cases l with
    | nil => simp [startsWithL] at h
    | cons y ys =>
      simp only [startsWithL, Bool.and_eq_true, beq_iff_eq] at h
      obtain ⟨h1, h2⟩ := h
      subst h1
      have h3 := ih ys h2
      simpa [List.length_cons, List.drop_succ_cons] using h3

lemma splitOnceL_append : ∀ (sep l a b : List Char),
    splitOnceL sep l = some (a, b) → l = a ++ sep ++ b := by
  intro sep l
  induction l with
  | nil => intro a b h; simp [splitOnceL] at h
  | cons y ys ih =>
    intro a b h
    by_cases hsw : startsWithL sep (y :: ys) = true
    · simp only [splitOnceL, hsw, if_true] at h
      obtain ⟨e1, e2⟩ := Prod.mk.injEq .. ▸ Option.some.injEq .. ▸ h
      subst e1
      subst e2
      simpa using startsWithL_eq sep (y :: ys) hsw
    · simp only [splitOnceL, hsw, if_false, Bool.false_eq_true] at h
      cases hrec : splitOnceL sep ys with
      | none => rw [hrec] at h; simp at h
      | some ab =>
        obtain ⟨a', b'⟩ := ab
        rw [hrec] at h
        simp only [Option.some.injEq, Prod.mk.injEq] at h
        obtain ⟨e1, e2⟩ := h
        subst e1
        subst e2
        simpa using ih a' b' hrec

lemma splitOnceL_contains : ∀ (sep l : List Char) (x : List Char × List Char),
    splitOnceL sep l = some x → containsL sep l = true := by
  intro sep l
  induction l with
  | nil => intro x h; simp [splitOnceL] at h
  | cons y ys ih =>
    intro x h
    by_cases hsw : startsWithL sep (y :: ys) = true
    · simp [containsL, hsw]
    · simp only [splitOnceL, hsw, if_false, Bool.false_eq_true] at h
      cases hrec : splitOnceL sep ys with
      | none => rw [hrec] at h; simp at h
      | some ab =>
        have := ih ab hrec
        simp [containsL, this]

lemma splitOnce_data {sep s a b : String} (h : splitOnce sep s = some (a, b)) :
    s.data = a.data ++ sep.data ++ b.data := by
  unfold splitOnce at h
  cases h1 : splitOnceL sep.data s.data with
  | none => rw [h1] at h; simp at h
  | some ab =>
    obtain ⟨la, lb⟩ := ab
    rw [h1] at h
    simp only [Option.some.injEq, Prod.mk.injEq] at h
    obtain ⟨e1, e2⟩ := h
    have h2 := splitOnceL_append sep.data s.data la lb h1
    subst e1
    subst e2
    exact h2

lemma splitOnce_pyIn {sep s : String} {x : String × String}
    (h : splitOnce sep s = some x) : pyIn sep s = true := by
  unfold splitOnce at h
  cases h1 : splitOnceL sep.data s.data with
  | none => rw [h1] at h; simp at h
  | some ab => exact splitOnceL_contains sep.data s.data ab h1

lemma dropWhile_cons_eq {p : Char → Bool} :
    ∀ (l : List Char) (x : Char) (xs : List Char),
    l.dropWhile p = x :: xs → p x = false := by
  intro l
  induction l with
  | nil => intro x xs h; simp at h
  | cons c cs ih =>
    intro x xs h
    by_cases hc : p c = true
    · rw [List.dropWhile_cons, if_pos hc] at h
      exact ih x xs h
    · rw [List.dropWhile_cons, if_neg hc] at h
      obtain ⟨e1, _⟩ := List.cons.injEq .. ▸ h
      rw [← e1]
      simpa using hc

lemma stripChars_last_not_ws {l l₁ : List Char} {c : Char}
    (h : stripChars l = l₁ ++ [c]) : c.isWhitespace = false := by
  unfold stripChars dropTrailingWs at h
  have h2 : (l.dropWhile Char.isWhitespace).reverse.dropWhile Char.isWhitespace =
      c :: l₁.reverse := by
    have h3 := congrArg List.reverse h
    simpa using h3
  exact dropWhile_cons_eq _ _ _ h2

lemma lineShape_empty_eq_none : lineShape "" = none := rfl

lemma lineShape_some {line ts rest sender msg : String}
    (h : lineShape line = some (ts, rest, sender, msg)) :
    splitOnce " - " line = some (ts, rest) ∧ splitOnce ": " rest = some (sender, msg) := by
  unfold lineShape at h
  split at h
  · simp at h
  · rename_i timestamp rest2 heq1
    split at h
    · simp at h
    · rename_i sender2 msg2 heq2
      simp only [Option.some.injEq, Prod.mk.injEq] at h
      obtain ⟨e1, e2, e3, e4⟩ := h
      subst e1
      subst e2
      subst e3
      subst e4
      exact ⟨heq1, heq2⟩

lemma lineShape_msg_ne {raw ts rest sender msg : String}
    (h : lineShape (pyStrip raw) = some (ts, rest, sender, msg)) : msg ≠ "" := by
  obtain ⟨h1, h2⟩ := lineShape_some h
  have e1 := splitOnce_data h1
  have e2 := splitOnce_data h2
  intro hm
  rw [hm] at e2
  have e3 : stripChars raw.data =
      (ts.data ++ (" - ").data ++ sender.data ++ [':']) ++ [' '] := by
    have e4 : (pyStrip raw).data = stripChars raw.data := rfl
    rw [← e4, e1, e2]
    simp [List.append_assoc]
  have h5 := stripChars_last_not_ws e3
  exact absurd h5 (by decide)

lemma processLine_of_blank {t : String} {st : Option (String × String)}
    {raw : String} (h : pyStrip raw = "") : processLine t st raw = (st, []) := by
  simp [processLine, h]

lemma processLine_of_noShape {t : String} {st : Option (String × String)}
    {raw : String} (h : lineShape (pyStrip raw) = none) :
    processLine t st raw = (st, []) := by
  by_cases hb : pyStrip raw = ""
  · simp [processLine, hb]
  · simp [processLine, hb, h]

lemma lineShape_some_strip_ne {raw ts rest sender msg : String}
    (h : lineShape (pyStrip raw) = some (ts, rest, sender, msg)) :
    pyStrip raw ≠ "" := by
  intro hb
  rw [hb] at h
  rw [lineShape_empty_eq_none] at h
  exact Option.noConfusion h

lemma processLine_of_media {t : String} {st : Option (String × String)}
    {raw ts rest sender msg : String}
    (h : lineShape (pyStrip raw) = some (ts, rest, sender, msg))
    (hm : pyIn "<Media omitted>" msg = true) :
    processLine t st raw = (st, []) := by
  have hb := lineShape_some_strip_ne h
  simp [processLine, hb, h, hm]

lemma processLine_success {t : String} {st : Option (String × String)}
    {raw ts rest sender msg : String}
    (h : lineShape (pyStrip raw) = some (ts, rest, sender, msg))
    (hm : pyIn "<Media omitted>" msg = false) :
    processLine t st raw = (some (msg, sender), pairsFor t st ts sender msg) := by
  have hb := lineShape_some_strip_ne h
  have hr : pyIn ": " rest = true := splitOnce_pyIn (lineShape_some h).2
  simp [processLine, hb, h, hm, hr]

lemma processLine_cases (t : String) (st : Option (String × String)) (raw : String) :
    processLine t st raw = (st, []) ∨
    ∃ ts rest sender msg,
      lineShape (pyStrip raw) = some (ts, rest, sender, msg) ∧
      pyIn "<Media omitted>" msg = false ∧ msg ≠ "" ∧
      processLine t st raw = (some (msg, sender), pairsFor t st ts sender msg) := by
  by_cases hb : pyStrip raw = ""
  · exact Or.inl (processLine_of_blank hb)
  · cases hs : lineShape (pyStrip raw) with
    | none => exact Or.inl (processLine_of_noShape hs)
    | some r =>
      obtain ⟨ts, rest, sender, msg⟩ := r
      cases hm : pyIn "<Media omitted>" msg with
      | true => exact Or.inl (processLine_of_media hs hm)
      | false =>
        exact Or.inr ⟨ts, rest, sender, msg, rfl, hm, lineShape_msg_ne hs,
          processLine_success hs hm⟩

lemma pairsFor_mem {t : String} {st : Option (String × String)}
    {ts sender msg : String} {p : ConversationPair}
    (hp : p ∈ pairsFor t st ts sender msg) :
    pyIn t sender = true ∧ p.response = msg ∧ p.timestamp = ts := by
  unfold pairsFor at hp
  split at hp
  · rename_i hsender
    refine ⟨by simpa using hsender, ?_⟩
    split at hp
    · split at hp
      · simp only [List.mem_singleton] at hp
        subst hp
        exact ⟨rfl, rfl⟩
      · simp only [List.mem_singleton] at hp
        subst hp
        exact ⟨rfl, rfl⟩
    · simp only [List.mem_singleton] at hp
      subst hp
      exact ⟨rfl, rfl⟩
  · simp at hp

lemma stOK_none : stOK none := by
  intro lm ls h
  exact Option.noConfusion h

lemma processLine_stOK {t : String} {st : Option (String × String)} {raw : String}
    (hok : stOK st) : stOK (processLine t st raw).1 := by
  rcases processLine_cases t st raw with h | ⟨ts, rest, sender, msg, hs, hm, hne, hsucc⟩
  · rw [h]
    exact hok
  · rw [hsucc]
    intro lm ls he
    have he2 : some (msg, sender) = some (lm, ls) := he
    obtain ⟨e1, _⟩ := Prod.mk.injEq .. ▸ Option.some.inj he2
    rw [← e1]
    exact hne

lemma pairsFor_context {t : String} {st : Option (String × String)}
    {ts sender msg : String} {p : ConversationPair}
    (hp : p ∈ pairsFor t st ts sender msg) (hok : stOK st) :
    (p.context = "" ↔
      (st = none ∨ ∃ lm ls, st = some (lm, ls) ∧ pyIn t ls = true)) := by
  unfold pairsFor at hp
  split at hp
  · split at hp
    · rename_i lm ls
      split at hp
      · rename_i hcond
        simp only [List.mem_singleton] at hp
        subst hp
        refine iff_of_false ?_ ?_
        · exact hcond.1
        · rintro (he | ⟨lm2, ls2, he, hin⟩)
          · exact Option.noConfusion he
          · obtain ⟨_, e2⟩ := Prod.mk.injEq .. ▸ Option.some.inj he
            rw [← e2] at hin
            rw [hcond.2] at hin
            exact Bool.noConfusion hin
      · rename_i hcond
        simp only [List.mem_singleton] at hp
        subst hp
        refine iff_of_true rfl (Or.inr ⟨lm, ls, rfl, ?_⟩)
        cases hb : pyIn t ls with
        | true => rfl
        | false => exact absurd ⟨hok lm ls rfl, hb⟩ hcond
    · simp only [List.mem_singleton] at hp
      subst hp
      exact iff_of_true rfl (Or.inl rfl)
  · simp at hp

lemma pairsFor_length (t : String) (st : Option (String × String))
    (ts sender msg : String) :
    (pairsFor t st ts sender msg).length =
      if pyIn t sender = true then 1 else 0 := by
  unfold pairsFor
  split
  · split
    · split
      · rfl
      · rfl
    · rfl
  · rfl

lemma parseLinesAnn_mem {t : String} {p : ConversationPair}
    {st₀ : Option (String × String)} :
    ∀ (lines : List String) (st : Option (String × String)), stOK st →
    (p, st₀) ∈ parseLinesAnn t st lines →
    stOK st₀ ∧ ∃ ts sender msg, p ∈ pairsFor t st₀ ts sender msg := by
  intro lines
  induction lines with
  | nil =>
    intro st _ hm
    simp [parseLinesAnn] at hm
  | cons line rest ih =>
    intro st hok hm
    simp only [parseLinesAnn, List.mem_append, List.mem_map] at hm
    rcases hm with ⟨q, hq, he⟩ | hm2
    · obtain ⟨e1, e2⟩ := Prod.mk.injEq .. ▸ he
      subst e1
      subst e2
      refine ⟨hok, ?_⟩
      rcases processLine_cases t st line with h | ⟨ts, r2, sender, msg, hs, hmed, hne, hsucc⟩
      · rw [h] at hq
        simp at hq
      · rw [hsucc] at hq
        exact ⟨ts, sender, msg, hq⟩
    · exact ih (processLine t st line).1 (processLine_stOK hok) hm2

lemma parseLinesAnn_fst {t : String} :
    ∀ (lines : List String) (st : Option (String × String)),
    (parseLinesAnn t st lines).map Prod.fst = parseLines t st lines := by
  intro lines
  induction lines with
  | nil => intro st; rfl
  | cons line rest ih =>
    intro st
    simp only [parseLinesAnn, parseLines, List.map_append, List.map_map]
    rw [ih]
    congr 1
    have hcomp : (Prod.fst ∘ fun p : ConversationPair => (p, st)) = id := rfl
    rw [hcomp, List.map_id]

lemma parseLines_response_ne {t : String} {p : ConversationPair} :
    ∀ (lines : List String) (st : Option (String × String)),
    p ∈ parseLines t st lines → p.response ≠ "" := by
  intro lines
  induction lines with
  | nil =>
    intro st hm
    simp [parseLines] at hm
  | cons line rest ih =>
    intro st hm
    simp only [parseLines, List.mem_append] at hm
    rcases hm with hm1 | hm2
    · rcases processLine_cases t st line with h | ⟨ts, r2, sender, msg, hs, hmed, hne, hsucc⟩
      · rw [h] at hm1
        simp at hm1
      · rw [hsucc] at hm1
        obtain ⟨_, hresp, _⟩ := pairsFor_mem hm1
        rw [hresp]
        exact hne
    · exact ih (processLine t st line).1 hm2

lemma exChoice_mem : ∀ (l : List String), l ≠ [] → exChoice l ∈ l := by
  intro l hl
  cases l with
  | nil => exact absurd rfl hl
  | cons x xs => exact List.mem_cons_self x xs

lemma counterKeys_aux_mem :
    ∀ (l acc : List String) (x : String),
    x ∈ l.foldl (fun acc r => if r ∈ acc then acc else acc ++ [r]) acc →
    x ∈ acc ∨ x ∈ l := by
  intro l
  induction l with
  | nil =>
    intro acc x h
    exact Or.inl h
  | cons r rest ih =>
    intro acc x h
    simp only [List.foldl_cons] at h
    rcases ih _ x h with hacc | hrest
    · by_cases hr : r ∈ acc
      · rw [if_pos hr] at hacc
        exact Or.inl hacc
      · rw [if_neg hr] at hacc
        rcases List.mem_append.mp hacc with h1 | h2
        · exact Or.inl h1
        · simp only [List.mem_singleton] at h2
          subst h2
          exact Or.inr (List.mem_cons_self x rest)
    · exact Or.inr (List.mem_cons_of_mem r hrest)

lemma mem_counterKeys {rs : List String} {x : String}
    (h : x ∈ counterKeys rs) : x ∈ shortResponses rs := by
  rcases counterKeys_aux_mem (shortResponses rs) [] x h with h1 | h2
  · simp at h1
  · exact h2

lemma mem_shortResponses {rs : List String} {x : String}
    (h : x ∈ shortResponses rs) : x ∈ rs ∧ (pyWords x).length ≤ 5 := by
  have h2 := List.mem_filter.mp h
  exact ⟨h2.1, by simpa using h2.2⟩

lemma count_shortResponses {rs : List String} {x : String}
    (h : (pyWords x).length ≤ 5) :
    (shortResponses rs).count x = rs.count x :=
  List.count_filter (by simpa using h)

lemma mem_phraseCounter {rs : List String} {pc : String × Nat}
    (h : pc ∈ phraseCounter rs) :
    pc.1 ∈ counterKeys rs ∧ pc.2 = (shortResponses rs).count pc.1 := by
  unfold phraseCounter at h
  obtain ⟨phrase, hmem, he⟩ := List.mem_map.mp h
  rw [← he]
  exact ⟨hmem, rfl⟩

/-- C1 (counterexample): the claim "the returned response is one of those
candidates" fails as stated.  With stored context `"hello"`, stored
response `" hi "` and incoming message `"hello"`, the direct-match
candidate set is `[" hi "]` and the chosen candidate is a member of it,
yet `get_response` returns `"hi"` — the stripped form — which is not one
of the candidates (the generator is indeed not invoked). -/
theorem c1_counterexample :
    directMatchScan "hello" ([("hello", " hi ")] : List (String × String)) =
      some [" hi "] ∧
    exChoice [" hi "] ∈ ([" hi "] : List String) ∧
    get_response ["hello"] [" hi "] "" "" exGen exChoice "" "hello" "Saman" =
      some ("hi", " hi ", false) ∧
    "hi" ∉ ([" hi "] : List String) := by
  refine ⟨?_, ?_, ?_, ?_⟩
  · with_unfolding_all decide
  · decide
  · with_unfolding_all decide
  · decide

/-- C1 (amended): if the direct-match candidate set computed in step 2 of
`get_response` is non-empty, the returned response is the
whitespace-stripped form of one of those candidates, and the external
generator is never invoked on that call (the generator-called flag is
`false`). -/
theorem c1_direct_match_short_circuit
    (contexts responses : List String) (common_phrases last_message : String)
    (generate : PromptInput → String) (choice : List String → String)
    (similar_messages message speaker : String) (dms : List String)
    (hscan : directMatchScan message (contexts.zip responses) = some dms)
    (hne : dms ≠ [])
    (hchoice : ∀ l, l ≠ [] → choice l ∈ l) :
    ∃ r, r ∈ dms ∧
      get_response contexts responses common_phrases last_message generate
        choice similar_messages message speaker = some (pyStrip r, r, false) := by
  refine ⟨choice dms, hchoice dms hne, ?_⟩
  simp only [get_response, hscan]
  rw [if_pos hne]

/-- C1 (witness): the amended theorem applied at the counterexample's
concrete input. -/
theorem c1_witness :
    ∃ r, r ∈ ([" hi "] : List String) ∧
      get_response ["hello"] [" hi "] "" "" exGen exChoice "" "hello" "Saman" =
        some (pyStrip r, r, false) :=
  c1_direct_match_short_circuit ["hello"] [" hi "] "" "" exGen exChoice ""
    "hello" "Saman" [" hi "] (by with_unfolding_all decide) (by decide)
    exChoice_mem

/-- C2: a pair emitted by the parser has an empty context exactly when, at
the moment of emission, the carried state holds no previous
successfully-parsed line, or that line's sender contains the target
identifier (it "came from the target speaker" in the parser's
substring-containment sense).  The first conjunct ties the instrumented
parse to `parse_whatsapp_chat`. -/
theorem c2_context_empty_iff (person_of_interest : String) (lines : List String) :
    parse_whatsapp_chat person_of_interest lines =
      (parseLinesAnn person_of_interest none lines).map Prod.fst ∧
    ∀ p st, (p, st) ∈ parseLinesAnn person_of_interest none lines →
      (p.context = "" ↔
        (st = none ∨
          ∃ lm ls, st = some (lm, ls) ∧ pyIn person_of_interest ls = true)) := by
  constructor
  · exact (parseLinesAnn_fst lines none).symm
  · intro p st hm
    obtain ⟨hok, ts, sender, msg, hp⟩ := parseLinesAnn_mem lines none stOK_none hm
    exact pairsFor_context hp hok

/-- C2 (witness): the theorem applied to the two-line scenario; the pair
emitted for the target's line has non-trivially characterized context. -/
theorem c2_witness :
    ((⟨"Hi there", "Hello!", "1/1/24, 10:01"⟩ : ConversationPair).context = "" ↔
      ((some ("Hi there", "Alice") : Option (String × String)) = none ∨
        ∃ lm ls, (some ("Hi there", "Alice") : Option (String × String)) =
          some (lm, ls) ∧ pyIn "Saman" ls = true)) :=
  (c2_context_empty_iff "Saman"
      ["1/1/24, 10:00 - Alice: Hi there", "1/1/24, 10:01 - Saman: Hello!"]).2
    ⟨"Hi there", "Hello!", "1/1/24, 10:01"⟩ (some ("Hi there", "Alice"))
    (by decide)

/-- C3: every pair emitted by `parse_whatsapp_chat` has a non-empty
response (a stripped line cannot end in the whitespace that an empty
message after the `": "` delimiter would force). -/
theorem c3_response_nonempty (person_of_interest : String) (lines : List String) :
    ∀ p ∈ parse_whatsapp_chat person_of_interest lines, p.response ≠ "" := by
  intro p hp
  exact parseLines_response_ne lines none hp

/-- C3 (witness): the theorem applied to the two-line scenario. -/
theorem c3_witness :
    (⟨"Hi there", "Hello!", "1/1/24, 10:01"⟩ : ConversationPair).response ≠ "" :=
  c3_response_nonempty "Saman"
    ["1/1/24, 10:00 - Alice: Hi there", "1/1/24, 10:01 - Saman: Hello!"]
    ⟨"Hi there", "Hello!", "1/1/24, 10:01"⟩ (by decide)

/-- C4: the entry list behind `extract_common_phrases` has at most 30
entries; every entry is a stored response of at most five words whose
count is its number of occurrences among the responses and is at least 5;
and the entries are ordered by count, descending. -/
theorem c4_common_phrases_spec (conversations : List ConversationPair) :
    (commonPhrasesTop (allResponses conversations)).length ≤ 30 ∧
    (∀ pc ∈ commonPhrasesTop (allResponses conversations),
      pc.1 ∈ allResponses conversations ∧ (pyWords pc.1).length ≤ 5 ∧
      pc.2 = (allResponses conversations).count pc.1 ∧ 5 ≤ pc.2) ∧
    List.Pairwise countGE (commonPhrasesTop (allResponses conversations)) := by
  refine ⟨?_, ?_, ?_⟩
  · unfold commonPhrasesTop
    rw [List.length_take]
    exact min_le_left _ _
  · intro pc hpc
    have h1 : pc ∈ commonPhrasesSorted (allResponses conversations) :=
      List.mem_of_mem_take hpc
    have h2 : pc ∈ (phraseCounter (allResponses conversations)).filter
        (fun x => decide (5 ≤ x.2)) := by
      unfold commonPhrasesSorted at h1
      exact (List.mem_insertionSort countGE).mp h1
    have h3 := List.mem_filter.mp h2
    have h5 : 5 ≤ pc.2 := by simpa using h3.2
    obtain ⟨hkey, hcount⟩ := mem_phraseCounter h3.1
    have h6 := mem_shortResponses (mem_counterKeys hkey)
    refine ⟨h6.1, h6.2, ?_, h5⟩
    rw [hcount, count_shortResponses h6.2]
  · unfold commonPhrasesTop
    exact List.Pairwise.sublist (List.take_sublist _ _)
      (List.sorted_insertionSort countGE _)

/-- C4 (witness): the theorem applied to a concrete conversation list. -/
theorem c4_witness :
    (commonPhrasesTop (allResponses
      [⟨"", "ok", "t1"⟩, ⟨"", "ok", "t2"⟩, ⟨"", "ok", "t3"⟩,
       ⟨"", "ok", "t4"⟩, ⟨"", "ok", "t5"⟩])).length ≤ 30 :=
  (c4_common_phrases_spec
    [⟨"", "ok", "t1"⟩, ⟨"", "ok", "t2"⟩, ⟨"", "ok", "t3"⟩,
     ⟨"", "ok", "t4"⟩, ⟨"", "ok", "t5"⟩]).1

/-- C5 (counterexample): the claim "after get_response returns,
SessionMemory.lastMessage equals the string that get_response returned"
fails: with stored context `"yo"` and stored response `" acha ji "`, the
call returns `"acha ji"` while `self.last_message` is set to the
un-stripped `" acha ji "`. -/
theorem c5_counterexample :
    get_response ["yo"] [" acha ji "] "" "" exGen exChoice "" "yo" "Saman" =
      some ("acha ji", " acha ji ", false) ∧
    ("acha ji" : String) ≠ " acha ji " := by
  refine ⟨?_, ?_⟩
  · with_unfolding_all decide
  · decide

/-- C5 (amended): after `get_response` returns, `self.last_message` holds
the un-stripped selected or generated response, and the value returned to
the caller is its whitespace-stripped form — so the two coincide exactly
when that response has no leading or trailing whitespace. -/
theorem c5_last_message_stores_unstripped
    (contexts responses : List String) (common_phrases last_message : String)
    (generate : PromptInput → String) (choice : List String → String)
    (similar_messages message speaker : String)
    (ret stored : String) (called : Bool)
    (h : get_response contexts responses common_phrases last_message generate
      choice similar_messages message speaker = some (ret, stored, called)) :
    ret = pyStrip stored := by
  unfold get_response at h
  split at h
  · exact Option.noConfusion h
  · split at h
    · have he := Option.some.inj h
      obtain ⟨e1, e23⟩ := Prod.mk.injEq .. ▸ he
      obtain ⟨e2, _⟩ := Prod.mk.injEq .. ▸ e23
      rw [← e1, ← e2]
    · have he := Option.some.inj h
      obtain ⟨e1, e23⟩ := Prod.mk.injEq .. ▸ he
      obtain ⟨e2, _⟩ := Prod.mk.injEq .. ▸ e23
      rw [← e1, ← e2]

/-- C5 (witness): the amended theorem applied at a concrete generator-branch
call. -/
theorem c5_witness : ("ok" : String) = pyStrip " ok " :=
  c5_last_message_stores_unstripped [] [] "" "" (fun _ => " ok ") exChoice ""
    "hi" "Saman" "ok" " ok " true (by decide)

/-- C6 (counterexample): on the spec's two-line scenario the parser emits
the pair with timestamp `"1/1/24, 10:01"` — the target line's own
timestamp — not `"1/1/24, 10:00"` as the claim states. -/
theorem c6_counterexample :
    parse_whatsapp_chat "Saman"
      ["1/1/24, 10:00 - Alice: Hi there", "1/1/24, 10:01 - Saman: Hello!"] =
      [⟨"Hi there", "Hello!", "1/1/24, 10:01"⟩] ∧
    parse_whatsapp_chat "Saman"
      ["1/1/24, 10:00 - Alice: Hi there", "1/1/24, 10:01 - Saman: Hello!"] ≠
      [⟨"Hi there", "Hello!", "1/1/24, 10:00"⟩] := by
  refine ⟨?_, ?_⟩
  · decide
  · decide

/-- C6 (amended): parsing the two scenario lines with target `"Saman"`
emits exactly the pair with context `"Hi there"`, response `"Hello!"` and
timestamp `"1/1/24, 10:01"` (the timestamp of the target speaker's own
line, not of the context line). -/
theorem c6_scenario_amended :
    parse_whatsapp_chat "Saman"
      ["1/1/24, 10:00 - Alice: Hi there", "1/1/24, 10:01 - Saman: Hello!"] =
      [⟨"Hi there", "Hello!", "1/1/24, 10:01"⟩] := by
  decide

/-- C7: a line that strips, splits into `(timestamp, sender, message)` and
is not a media-omission message yields exactly one pair when the target
identifier is a substring of the sender field, and zero pairs otherwise. -/
theorem c7_emission_iff_sender_match (person_of_interest : String)
    (st : Option (String × String)) (raw ts rest sender msg : String)
    (hshape : lineShape (pyStrip raw) = some (ts, rest, sender, msg))
    (hmedia : pyIn "<Media omitted>" msg = false) :
    (processLine person_of_interest st raw).2.length =
      if pyIn person_of_interest sender = true then 1 else 0 := by
  rw [processLine_success hshape hmedia]
  exact pairsFor_length person_of_interest st ts sender msg

/-- C7 (witness): the theorem applied to a concrete target-speaker line. -/
theorem c7_witness :
    (processLine "Saman" none "1/1/24, 10:01 - Saman: Hello!").2.length =
      if pyIn "Saman" "Saman" = true then 1 else 0 :=
  c7_emission_iff_sender_match "Saman" none "1/1/24, 10:01 - Saman: Hello!"
    "1/1/24, 10:01" "Saman: Hello!" "Saman" "Hello!" (by decide) (by decide)

/-- C8: a line whose message body contains `"<Media omitted>"` emits no
pair and leaves the carried `(last_message, last_sender)` state unchanged
(the `continue` fires before the state update). -/
theorem c8_media_skip (person_of_interest : String)
    (st : Option (String × String)) (raw ts rest sender msg : String)
    (hshape : lineShape (pyStrip raw) = some (ts, rest, sender, msg))
    (hmedia : pyIn "<Media omitted>" msg = true) :
    processLine person_of_interest st raw = (st, []) :=
  processLine_of_media hshape hmedia

/-- C8 (witness): a media line between two others leaves the carried state
from the prior line intact. -/
theorem c8_witness :
    processLine "Saman" (some ("Hi there", "Alice"))
      "1/1/24, 10:02 - Alice: <Media omitted>" = (some ("Hi there", "Alice"), []) :=
  c8_media_skip "Saman" (some ("Hi there", "Alice"))
    "1/1/24, 10:02 - Alice: <Media omitted>" "1/1/24, 10:02"
    "Alice: <Media omitted>" "Alice" "<Media omitted>" (by decide) (by decide)

/-- C9: a line that does not match the expected shape (blank after
stripping, or failing either split) is skipped: the per-line step emits no
pair and keeps the carried state, and inserting such a line anywhere in a
transcript does not change the parser's output, which is always a
well-defined list. -/
theorem c9_malformed_skip (person_of_interest line : String)
    (h : pyStrip line = "" ∨ lineShape (pyStrip line) = none) :
    (∀ st, processLine person_of_interest st line = (st, [])) ∧
    ∀ (pre post : List String) (st : Option (String × String)),
      parseLines person_of_interest st (pre ++ line :: post) =
        parseLines person_of_interest st (pre ++ post) := by
  have hstep : ∀ st, processLine person_of_interest st line = (st, []) := by
    intro st
    rcases h with h1 | h2
    · exact processLine_of_blank h1
    · exact processLine_of_noShape h2
  refine ⟨hstep, ?_⟩
  intro pre
  induction pre with
  | nil =>
    intro post st
    simp only [List.nil_append, parseLines]
    rw [hstep st]
    simp
  | cons l rest ih =>
    intro post st
    simp only [List.cons_append, parseLines, List.append_eq]
    rw [ih]

/-- C9 (witness): the theorem applied to a concrete malformed line. -/
theorem c9_witness :
    processLine "Saman" (some ("a", "b")) "garbage line" = (some ("a", "b"), []) ∧
    parseLines "Saman" none ([] ++ "garbage line" :: ["1/1/24, 10:01 - Saman: Hello!"]) =
      parseLines "Saman" none ([] ++ ["1/1/24, 10:01 - Saman: Hello!"]) :=
  ⟨(c9_malformed_skip "Saman" "garbage line" (by decide)).1 (some ("a", "b")),
   (c9_malformed_skip "Saman" "garbage line" (by decide)).2 []
     ["1/1/24, 10:01 - Saman: Hello!"] none⟩

/-- C10: the direct-match similarity computation is not total.  The stored
context `" "` is non-empty (so it is truthy) yet splits into zero words,
and the incoming message `""` also splits into zero words and passes the
substring test, so the denominator `max` is `0` and `get_response` raises
`ZeroDivisionError` (modelled as `none`) instead of returning a
response. -/
theorem c10_division_by_zero :
    (" " : String) ≠ "" ∧
    (pyWords " ").length = 0 ∧ (pyWords "").length = 0 ∧
    pyIn (pyLower "") (pyLower " ") = true ∧
    wordMaxCount "" " " = 0 ∧
    get_response [" "] ["x"] "" "" exGen exChoice "" "" "Saman" = none := by
  refine ⟨?_, ?_, ?_, ?_, ?_, ?_⟩
  · decide
  · decide
  · decide
  · decide
  · decide
  · decide
